import Mathlib

/-
Shallow embedding of the pingmeplz monitoring engine (nictuku/pingmeplz).

The repository contains three historically divergent variants of the runner:
  * `main.go` (old variant): ring buffer with `bufSize = 30` but a cursor
    advanced modulo 10, no per-slot timestamp — embedded in `OldMain`.
  * the current runner (with `CollectionTime`, `maxHosts` and `%% bufSize`) —
    embedded in `PingMePlz`.
  * the webmon variant carrying the notification state machine
    (`errors` map, `State{err, sent}`, `numErrors` threshold) —
    embedded in `Webmon`.

Go machine integers are embedded as `Nat` (all quantities involved — cursor
positions, durations in nanoseconds, list lengths — are non-negative and far
from overflow in every reachable state, so no wrap-around modelling is
needed); `error` values as `Option String`; fixed-size Go arrays as total
functions from the index type, written only at indices reduced modulo the
array size by the source itself.
-/

set_option linter.unusedVariables false
set_option linter.dupNamespace false

namespace Webmon

/-- Per-host notification state, from the webmon variant:
`type State struct { err []error; sent bool }`.
`err` is the list of reasons accumulated over the current failure streak,
`sent` records whether the "down" notification for this streak went out. -/
structure State where
  err : List String
  sent : Bool
deriving DecidableEq, Repr

/-- The two notifications the engine can emit: a "down" mail carrying the
accumulated failure reasons (`h.Error = s.err` fed to `notifyTemplate`), or a
"recovered" mail (`h.Error = nil`). -/
inductive Notif where
  | down (reasons : List String)
  | recovered
deriving DecidableEq, Repr

/-- A classified probe outcome, as produced by `Runner.Ping`:
HTTP 200 is a success, any transport error or non-200 status a failure. -/
inductive Outcome where
  | success
  | failure (reason : String)
deriving DecidableEq, Repr

/-- `Runner.OK` of the webmon variant, restricted to one host's slot of the
`errors` map (`none` models both an absent key and a stored nil pointer,
which the source treats identically).  The map entry is cleared; a
"recovered" notification is sent iff the streak had been notified down. -/
def OK (s : Option State) : Option State × Option Notif :=
  match s with
  | none => (none, none)
  | some st => (none, if st.sent then some .recovered else none)

/-- `Runner.Fail` of the webmon variant for one host, with threshold
`K = *numErrors`: append the new reason; if the streak was already notified
or is still below the threshold, do nothing more; otherwise mark it sent and
emit the "down" notification with the accumulated reasons. -/
def Fail (K : Nat) (s : Option State) (e : String) : Option State × Option Notif :=
  let s0 := s.getD ⟨[], false⟩
  let errs := s0.err ++ [e]
  if s0.sent = true ∨ errs.length < K then (some ⟨errs, s0.sent⟩, none)
  else (some ⟨errs, true⟩, some (.down errs))

/-- One probe outcome routed to one host's notification state. -/
def step (K : Nat) (s : Option State) : Outcome → Option State × Option Notif
  | .success => OK s
  | .failure e => Fail K s e

/-- Feed a sequence of outcomes to one host, collecting every emitted
notification in order. -/
def runSeq (K : Nat) : Option State → List Outcome → Option State × List Notif
  | s, [] => (s, [])
  | s, o :: os =>
    let r1 := step K s o
    let r2 := runSeq K r1.1 os
    (r2.1, r1.2.toList ++ r2.2)

end Webmon

namespace PingMePlz

/-- `bufSize` of the current runner: "7d worth of 1m frequency collections". -/
def bufSize : Nat := 10080

/-- `Host` of the current runner.  `pos` is the write cursor; `Latency`,
`Error` and `CollectionTime` embed the three fixed-size arrays of length
`bufSize` (durations and times as `Nat`, `error` as `Option String`); the
source only ever indexes them at cursor values already reduced modulo
`bufSize`. -/
structure Host where
  Host : String
  Email : String
  pos : Nat
  Latency : Nat → Nat
  Error : Nat → Option String
  CollectionTime : Nat → Nat

/-- `Runner.OK` of the current runner: advance the cursor modulo `bufSize`,
then store the measured duration, the collection time and a nil error in the
slot at the new cursor. -/
def OK (h : Host) (duration now : Nat) : Host :=
  let p := (h.pos + 1) % bufSize
  { h with
    pos := p
    Latency := fun i => if i = p then duration else h.Latency i
    CollectionTime := fun i => if i = p then now else h.CollectionTime i
    Error := fun i => if i = p then none else h.Error i }

/-- `Runner.Fail` of the current runner: advance the cursor modulo `bufSize`,
then store the collection time and the error in the slot at the new cursor.
The `Latency` array is not touched. -/
def Fail (h : Host) (getErr : String) (now : Nat) : Host :=
  let p := (h.pos + 1) % bufSize
  { h with
    pos := p
    CollectionTime := fun i => if i = p then now else h.CollectionTime i
    Error := fun i => if i = p then some getErr else h.Error i }

/-- Outcomes of `Runner.NewHost`, mirroring the two `fmt.Errorf` returns:
"Host already being monitored: ..." and
"Maximum number of monitored hosts reached: ...". -/
inductive NewHostError where
  | alreadyMonitored
  | capacityExceeded
deriving DecidableEq, Repr

/-- `Runner.NewHost` of the current runner over the registry map `r.Hosts`
(embedded as an association list keyed by hostname) with the configured
maximum `*maxHosts`.  A duplicate hostname or a full registry is rejected
before any mutation; otherwise the host is inserted and `r.save()` is
called — its result (`saveErr`, `none` for a successful save) is discarded
by the source, which returns nil unconditionally after the insert. -/
def NewHost (maxHosts : Nat) (hosts : List (String × Host)) (h : Host)
    (saveErr : Option String) : List (String × Host) × Except NewHostError Unit :=
  match hosts.lookup h.Host with
  | some _ => (hosts, .error .alreadyMonitored)
  | none =>
    if hosts.length + 1 > maxHosts then (hosts, .error .capacityExceeded)
    else ((h.Host, h) :: hosts, .ok ())

/-- The mutable runner state that `loadRules` touches: `last`, the
modification time of the last successfully loaded file (as `Nat`), and
`Hosts`, the registry map (`none` embeds the Go nil map before any
successful load). -/
structure RunnerState where
  last : Nat
  Hosts : Option (List (String × Host))

/-- A freshly decoded `Host`:  `json.Decode` populates only `Host` and
`Email`; the fields tagged `json:"-"` (`pos`, `Latency`, `Error`,
`CollectionTime`) keep their Go zero values. -/
def mkHost (host email : String) : Host :=
  { Host := host, Email := email, pos := 0
    Latency := fun _ => 0, Error := fun _ => none, CollectionTime := fun _ => 0 }

/-- The host map decoded from the file's `{hostname: {Host, Email}}` records:
every entry is a fresh `Host` with zeroed runtime state. -/
def decodeHosts (records : List (String × String)) : List (String × Host) :=
  records.map fun r => (r.1, mkHost r.1 r.2)

/-- `Runner.loadRules`.  The interactions with the file system are passed in
as oracles: `statRes` is `os.Stat`'s modification time (`none` embeds a stat
error), `openOk` whether `os.Open` succeeds, and `decodeRes` the records
produced by `json.Decode` (`none` embeds a decode error).  The reload is
skipped — returning nil with no mutation — only when the file's mtime is
strictly before `r.last` (`mtime.Before(r.last)`) and a host map is already
loaded; on any error the state is returned untouched; on success `last` and
`Hosts` are overwritten wholesale. -/
def loadRules (r : RunnerState) (statRes : Option Nat) (openOk : Bool)
    (decodeRes : Option (List (String × String))) :
    RunnerState × Except String Unit :=
  match statRes with
  | none => (r, .error "loadRules Stat")
  | some mtime =>
    if mtime < r.last ∧ r.Hosts.isSome = true then (r, .ok ())
    else if openOk then
      match decodeRes with
      | none => (r, .error "loadRules json Decode")
      | some records => ({ last := mtime, Hosts := some (decodeHosts records) }, .ok ())
    else (r, .error "loadRules Open")

end PingMePlz

namespace OldMain

/-- `bufSize` of the old `main.go` variant: "How many errors and latency
stats to keep for each host." -/
def bufSize : Nat := 30

/-- `Host` of the old `main.go` variant: no `CollectionTime` array; the
comment on `pos` reads "0..9". -/
structure Host where
  Host : String
  Email : String
  pos : Nat
  Latency : Nat → Nat
  Error : Nat → Option String

/-- `Runner.OK` of the old variant: `h.pos = (h.pos + 1) %% 10` — the
modulus is the literal 10, not `bufSize` — then latency and a nil error are
stored at the new cursor.  No timestamp is recorded. -/
def OK (h : Host) (duration : Nat) : Host :=
  let p := (h.pos + 1) % 10
  { h with
    pos := p
    Latency := fun i => if i = p then duration else h.Latency i
    Error := fun i => if i = p then none else h.Error i }

/-- `Runner.Fail` of the old variant: cursor advanced modulo the literal 10,
error stored at the new cursor; neither latency nor timestamp is written. -/
def Fail (h : Host) (getErr : String) : Host :=
  let p := (h.pos + 1) % 10
  { h with
    pos := p
    Error := fun i => if i = p then some getErr else h.Error i }

end OldMain

namespace Webmon

theorem runSeq_nil (K : Nat) (s : Option State) : runSeq K s [] = (s, []) := rfl

theorem runSeq_cons (K : Nat) (s : Option State) (o : Outcome) (os : List Outcome) :
    runSeq K s (o :: os) =
      ((runSeq K (step K s o).1 os).1,
        (step K s o).2.toList ++ (runSeq K (step K s o).1 os).2) := rfl

theorem runSeq_append (K : Nat) (s : Option State) (xs ys : List Outcome) :
    runSeq K s (xs ++ ys) =
      ((runSeq K (runSeq K s xs).1 ys).1,
        (runSeq K s xs).2 ++ (runSeq K (runSeq K s xs).1 ys).2) := by
  induction xs generalizing s with
  | nil => simp [runSeq]
  | cons o os ih =>
    simp only [List.cons_append, runSeq_cons, ih, List.append_assoc]

theorem Fail_sent (K : Nat) (errs : List String) (e : String) :
    Fail K (some ⟨errs, true⟩) e = (some ⟨errs ++ [e], true⟩, none) := by
  simp [Fail]

theorem Fail_below (K : Nat) (errs : List String) (e : String)
    (h : errs.length + 1 < K) :
    Fail K (some ⟨errs, false⟩) e = (some ⟨errs ++ [e], false⟩, none) := by
  simp [Fail, h]

theorem Fail_cross (K : Nat) (errs : List String) (e : String)
    (h : errs.length + 1 = K) :
    Fail K (some ⟨errs, false⟩) e =
      (some ⟨errs ++ [e], true⟩, some (.down (errs ++ [e]))) := by
  simp [Fail, h]

/-- Once the "down" notification went out, further failures only accumulate
reasons and emit nothing. -/
theorem fails_after_sent (K k : Nat) (errs : List String) (e : String) :
    runSeq K (some ⟨errs, true⟩) (List.replicate k (.failure e)) =
      (some ⟨errs ++ List.replicate k e, true⟩, []) := by
  induction k generalizing errs with
  | zero => simp [runSeq]
  | succ m ih =>
    rw [List.replicate_succ, runSeq_cons]
    simp only [step, Fail_sent, Option.toList_none, List.nil_append]
    rw [ih (errs ++ [e])]
    simp [List.replicate_succ, List.append_assoc]

/-- Below the threshold, each failure appends a reason and emits nothing. -/
theorem fails_below (K k : Nat) (errs : List String) (e : String)
    (h : errs.length + k < K) :
    runSeq K (some ⟨errs, false⟩) (List.replicate k (.failure e)) =
      (some ⟨errs ++ List.replicate k e, false⟩, []) := by
  induction k generalizing errs with
  | zero => simp [runSeq]
  | succ m ih =>
    rw [List.replicate_succ, runSeq_cons]
    have hb : errs.length + 1 < K := by omega
    simp only [step, Fail_below K errs e hb, Option.toList_none, List.nil_append]
    rw [ih (errs ++ [e]) (by simp; omega)]
    simp [List.replicate_succ, List.append_assoc]

/-- Crossing the threshold: starting with `errs.length < K` reasons and at
least `K - errs.length` further failures, exactly one "down" notification is
emitted, carrying the first `K` reasons, and the streak ends marked sent. -/
theorem fails_cross (K k : Nat) (errs : List String) (e : String)
    (h1 : errs.length < K) (h2 : K ≤ errs.length + k) :
    runSeq K (some ⟨errs, false⟩) (List.replicate k (.failure e)) =
      (some ⟨errs ++ List.replicate k e, true⟩,
        [.down (errs ++ List.replicate (K - errs.length) e)]) := by
  induction k generalizing errs with
  | zero => omega
  | succ m ih =>
    rw [List.replicate_succ, runSeq_cons]
    by_cases hc : errs.length + 1 < K
    · simp only [step, Fail_below K errs e hc, Option.toList_none, List.nil_append]
      rw [ih (errs ++ [e]) (by simpa using hc) (by simp; omega)]
      have hK : K - errs.length = (K - (errs.length + 1)) + 1 := by omega
      rw [hK]
      simp [List.replicate_succ, List.append_assoc]
    · have hc' : errs.length + 1 = K := by omega
      simp only [step, Fail_cross K errs e hc', Option.toList_some]
      rw [fails_after_sent K m (errs ++ [e]) e]
      have hK : K - errs.length = 1 := by omega
      rw [hK]
      simp [List.replicate_succ, List.append_assoc]

/-- The first failure from the `Up` state (no entry in the `errors` map)
behaves exactly like a failure from an empty, un-notified streak. -/
theorem runSeq_none_failure (K : Nat) (e : String) (os : List Outcome) :
    runSeq K none (.failure e :: os) =
      runSeq K (some ⟨[], false⟩) (.failure e :: os) := rfl

end Webmon

/-- C2: a host starting in the `Up` state (no entry in the `errors` map) fed
`n` consecutive failures emits no notification while `n < K` and exactly one
"down" notification — carrying the `K` accumulated reasons — as soon as
`n ≥ K`; so the single notification fires on the K-th failure, not earlier,
and further failures while down add nothing. -/
theorem C2_down_exactly_once (K n : Nat) (e : String) (hK : 1 ≤ K) :
    (Webmon.runSeq K none (List.replicate n (.failure e))).2 =
      if n < K then [] else [.down (List.replicate K e)] := by
  cases n with
  | zero =>
    rw [if_pos (by omega)]
    rfl
  | succ m =>
    rw [List.replicate_succ, Webmon.runSeq_none_failure, ← List.replicate_succ]
    by_cases h : m + 1 < K
    · rw [Webmon.fails_below K (m + 1) [] e (by simpa using h), if_pos h]
    · rw [Webmon.fails_cross K (m + 1) [] e (by simp only [List.length_nil]; omega)
        (by simp only [List.length_nil]; omega), if_neg h]
      simp

/-- C2 witness: with threshold `K = 3`, three consecutive failures from `Up`
emit exactly the single "down" notification with the three reasons. -/
theorem C2_down_exactly_once_witness :
    1 ≤ 3 ∧
      (Webmon.runSeq 3 none (List.replicate 3 (.failure "boom"))).2 =
        if 3 < 3 then [] else [.down (List.replicate 3 "boom")] :=
  ⟨by decide, C2_down_exactly_once 3 3 "boom" (by decide)⟩

/-- C3: from the `DownNotified` state (`sent = true`, any accumulated
reasons), a single success emits exactly one "recovered" notification and
clears the host's entry in the `errors` map — the consecutive-failure
counter is back to 0 and the state is `Up`. -/
theorem C3_recovered_once (K : Nat) (errs : List String) :
    Webmon.runSeq K (some ⟨errs, true⟩) [.success] = (none, [.recovered]) := by
  simp [Webmon.runSeq, Webmon.step, Webmon.OK]

/-- C4: a host starting in `Up` that fails `K - 1` consecutive times and then
succeeds emits no notification at all: the streak healed below the
threshold. -/
theorem C4_healed_silently (K : Nat) (e : String) (hK : 1 ≤ K) :
    (Webmon.runSeq K none
      (List.replicate (K - 1) (.failure e) ++ [.success])).2 = [] := by
  cases hm : K - 1 with
  | zero =>
    simp [Webmon.runSeq, Webmon.step, Webmon.OK]
  | succ m =>
    rw [List.replicate_succ, List.cons_append, Webmon.runSeq_none_failure,
      ← List.cons_append, ← List.replicate_succ, Webmon.runSeq_append,
      Webmon.fails_below K (m + 1) [] e (by simp only [List.length_nil]; omega)]
    simp [Webmon.runSeq, Webmon.step, Webmon.OK]

/-- C4 witness: with threshold `K = 3`, two failures followed by a success
emit nothing. -/
theorem C4_healed_silently_witness :
    1 ≤ 3 ∧
      (Webmon.runSeq 3 none
        (List.replicate (3 - 1) (.failure "x") ++ [.success])).2 = [] :=
  ⟨by decide, C4_healed_silently 3 "x" (by decide)⟩

/-- C1 counterexample: the claim fails concretely twice over.  In the old
`main.go` variant (`bufSize = 30`) a success recorded at cursor 9 moves the
cursor to 0 although `(9 + 1) %% bufSize = 10` — the modulus in the source is
the literal 10, not `bufSize`.  And in the current runner, `Fail` never
writes the latency array: recording a failure over a slot holding the stale
latency 7 leaves 7 in the slot at the new cursor, so the failure outcome's
measured latency is not written. -/
theorem C1_record_cex :
    (OldMain.OK ⟨"a", "e", 9, fun _ => 0, fun _ => none⟩ 5).pos = 0 ∧
      (9 + 1) % OldMain.bufSize = 10 ∧
      (PingMePlz.Fail ⟨"a", "e", 0, fun _ => 7, fun _ => none, fun _ => 0⟩
          "boom" 100).Latency ((0 + 1) % PingMePlz.bufSize) = 7 :=
  ⟨rfl, rfl, rfl⟩

/-- C1 (amended): in the current runner both record operations advance the
write cursor by exactly one modulo `bufSize` and write the outcome's error
and timestamp into the slot at the new cursor; `OK` also writes the measured
latency there, while `Fail` leaves every latency slot unchanged.  In the old
`main.go` variant both operations advance the cursor by one modulo the
literal 10, independent of `bufSize = 30`, and record no timestamp. -/
theorem C1_record_amended (h : PingMePlz.Host) (g : OldMain.Host)
    (d t : Nat) (e : String) :
    ((PingMePlz.OK h d t).pos = (h.pos + 1) % PingMePlz.bufSize ∧
      (PingMePlz.OK h d t).Latency ((h.pos + 1) % PingMePlz.bufSize) = d ∧
      (PingMePlz.OK h d t).Error ((h.pos + 1) % PingMePlz.bufSize) = none ∧
      (PingMePlz.OK h d t).CollectionTime ((h.pos + 1) % PingMePlz.bufSize) = t) ∧
    ((PingMePlz.Fail h e t).pos = (h.pos + 1) % PingMePlz.bufSize ∧
      (PingMePlz.Fail h e t).Error ((h.pos + 1) % PingMePlz.bufSize) = some e ∧
      (PingMePlz.Fail h e t).CollectionTime ((h.pos + 1) % PingMePlz.bufSize) = t ∧
      ∀ i, (PingMePlz.Fail h e t).Latency i = h.Latency i) ∧
    ((OldMain.OK g d).pos = (g.pos + 1) % 10 ∧
      (OldMain.Fail g e).pos = (g.pos + 1) % 10) := by
  refine ⟨⟨?_, ?_, ?_, ?_⟩, ⟨?_, ?_, ?_, fun i => rfl⟩, rfl, rfl⟩
  all_goals simp [PingMePlz.OK, PingMePlz.Fail]

/-- C5: `Runner.NewHost` with a hostname already present in the registry
returns the already-monitored error and returns the registry — contents and
size — unchanged. -/
theorem C5_already_monitored (maxH : Nat)
    (hosts : List (String × PingMePlz.Host)) (h : PingMePlz.Host)
    (saveErr : Option String)
    (hp : (hosts.lookup h.Host).isSome = true) :
    PingMePlz.NewHost maxH hosts h saveErr =
      (hosts, .error .alreadyMonitored) := by
  rcases hl : hosts.lookup h.Host with _ | g
  · rw [hl] at hp
    simp at hp
  · simp [PingMePlz.NewHost, hl]

/-- C5 witness: adding "a" to a registry already holding "a" is rejected with
the already-monitored error and the registry is returned unchanged. -/
theorem C5_already_monitored_witness :
    ((([("a", PingMePlz.mkHost "a" "e1")] : List (String × PingMePlz.Host)).lookup
        (PingMePlz.mkHost "a" "e2").Host).isSome = true) ∧
      PingMePlz.NewHost 100 [("a", PingMePlz.mkHost "a" "e1")]
          (PingMePlz.mkHost "a" "e2") none =
        ([("a", PingMePlz.mkHost "a" "e1")], .error .alreadyMonitored) :=
  ⟨rfl, C5_already_monitored 100 [("a", PingMePlz.mkHost "a" "e1")]
    (PingMePlz.mkHost "a" "e2") none rfl⟩

/-- C6: `Runner.NewHost` on a registry already holding the configured
maximum number of hosts rejects a new hostname with the capacity error and
returns the registry — contents and size — unchanged. -/
theorem C6_capacity_exceeded (maxH : Nat)
    (hosts : List (String × PingMePlz.Host)) (h : PingMePlz.Host)
    (saveErr : Option String)
    (hp : hosts.lookup h.Host = none) (hc : hosts.length = maxH) :
    PingMePlz.NewHost maxH hosts h saveErr =
      (hosts, .error .capacityExceeded) := by
  subst hc
  simp [PingMePlz.NewHost, hp]

/-- C6 witness: with `maxHosts = 1` and one monitored host, adding a fresh
hostname "b" is rejected with the capacity error, registry unchanged. -/
theorem C6_capacity_exceeded_witness :
    (([("a", PingMePlz.mkHost "a" "ea")] : List (String × PingMePlz.Host)).lookup
        (PingMePlz.mkHost "b" "eb").Host = none) ∧
      ([("a", PingMePlz.mkHost "a" "ea")] : List (String × PingMePlz.Host)).length = 1 ∧
      PingMePlz.NewHost 1 [("a", PingMePlz.mkHost "a" "ea")]
          (PingMePlz.mkHost "b" "eb") none =
        ([("a", PingMePlz.mkHost "a" "ea")], .error .capacityExceeded) :=
  ⟨rfl, rfl, C6_capacity_exceeded 1 [("a", PingMePlz.mkHost "a" "ea")]
    (PingMePlz.mkHost "b" "eb") none rfl rfl⟩

/-- C7 counterexample: when the duplicate and capacity checks pass but the
save fails ("disk full"), `Runner.NewHost` reports success — `nil`, not a
persistence error — to its caller, while the host is inserted: the source
discards the result of `r.save()`. -/
theorem C7_persistence_cex :
    PingMePlz.NewHost 100 [] (PingMePlz.mkHost "b" "eb") (some "disk full") =
      ([("b", PingMePlz.mkHost "b" "eb")], .ok ()) := rfl

/-- C7 (amended): when the duplicate and capacity checks pass, the new host
is inserted in the in-memory registry and the call reports success to its
caller regardless of whether the persistence save failed — the save error is
silently discarded, not surfaced as a persistence error. -/
theorem C7_save_error_discarded (maxH : Nat)
    (hosts : List (String × PingMePlz.Host)) (h : PingMePlz.Host)
    (saveErr : Option String)
    (hp : hosts.lookup h.Host = none) (hc : hosts.length + 1 ≤ maxH) :
    PingMePlz.NewHost maxH hosts h saveErr =
      ((h.Host, h) :: hosts, .ok ()) := by
  simp [PingMePlz.NewHost, hp]
  omega

/-- C7 witness: inserting "c" into an empty registry with a failing save
succeeds from the caller's point of view, with the host retained. -/
theorem C7_save_error_discarded_witness :
    (([] : List (String × PingMePlz.Host)).lookup
        (PingMePlz.mkHost "c" "ec").Host = none) ∧
      ([] : List (String × PingMePlz.Host)).length + 1 ≤ 100 ∧
      PingMePlz.NewHost 100 [] (PingMePlz.mkHost "c" "ec") (some "io error") =
        ([("c", PingMePlz.mkHost "c" "ec")], .ok ()) :=
  ⟨rfl, by decide, C7_save_error_discarded 100 [] (PingMePlz.mkHost "c" "ec")
    (some "io error") rfl (by decide)⟩

/-- C8 counterexample: with the last-loaded mtime 5, a backing file whose
mtime is still 5 (unchanged) is NOT skipped — `mtime.Before(r.last)` is a
strict comparison — so the host map is replaced by freshly decoded records:
the host "a", which had cursor position 3 before the call, afterwards is the
freshly decoded record with cursor position 0.  The in-memory host set is
not left as it was. -/
theorem C8_skip_cex :
    ((((PingMePlz.loadRules
            ⟨5, some [("a", ⟨"a", "e", 3, fun _ => 7, fun _ => none, fun _ => 0⟩)]⟩
            (some 5) true (some [("a", "e")])).1.Hosts.getD []).lookup
          "a").map PingMePlz.Host.pos = some 0) ∧
      ((((⟨5, some [("a", ⟨"a", "e", 3, fun _ => 7, fun _ => none, fun _ => 0⟩)]⟩ :
            PingMePlz.RunnerState).Hosts.getD []).lookup "a").map
          PingMePlz.Host.pos = some 3) ∧
      (0 : Nat) ≠ 3 :=
  ⟨rfl, rfl, by decide⟩

/-- C8 (amended): `Runner.loadRules` skips the reload — leaving the runner
state, in particular the in-memory host set, exactly as it was — only when
the backing file's modification time is strictly older than the last
successfully loaded one and a host map is already loaded; an unchanged
(equal) modification time triggers a full reload instead. -/
theorem C8_skip_strictly_older (r : PingMePlz.RunnerState) (m : Nat)
    (openOk : Bool) (decodeRes : Option (List (String × String)))
    (h1 : m < r.last) (h2 : r.Hosts.isSome = true) :
    PingMePlz.loadRules r (some m) openOk decodeRes = (r, .ok ()) := by
  simp [PingMePlz.loadRules, h1, h2]

/-- C8 witness: with last-loaded mtime 5 and a loaded (empty) host map, a
file mtime of 4 skips the reload and returns the state untouched. -/
theorem C8_skip_strictly_older_witness :
    (4 < (⟨5, some []⟩ : PingMePlz.RunnerState).last) ∧
      ((⟨5, some []⟩ : PingMePlz.RunnerState).Hosts.isSome = true) ∧
      PingMePlz.loadRules ⟨5, some []⟩ (some 4) true (some [("a", "e")]) =
        (⟨5, some []⟩, .ok ()) :=
  ⟨by decide, rfl, C8_skip_strictly_older ⟨5, some []⟩ 4 true
    (some [("a", "e")]) (by decide) rfl⟩

/-- C9: whenever `Runner.loadRules` fails — at the stat, the open or the
decode step — the runner state is returned exactly as it was: neither the
previously loaded host set nor the recorded last-load modification time is
mutated. -/
theorem C9_load_failure_no_mutation (r : PingMePlz.RunnerState)
    (statRes : Option Nat) (openOk : Bool)
    (decodeRes : Option (List (String × String))) (msg : String)
    (he : (PingMePlz.loadRules r statRes openOk decodeRes).2 = .error msg) :
    (PingMePlz.loadRules r statRes openOk decodeRes).1 = r := by
  cases statRes with
  | none => rfl
  | some m =>
    by_cases hskip : m < r.last ∧ r.Hosts.isSome = true
    · simp [PingMePlz.loadRules, hskip]
    · cases openOk with
      | false => simp [PingMePlz.loadRules, hskip]
      | true =>
        cases decodeRes with
        | none => simp [PingMePlz.loadRules, hskip]
        | some recs =>
          exfalso
          simp [PingMePlz.loadRules, hskip] at he

/-- C9 witness: a stat failure (the file vanished) reports the error and
leaves the state ⟨7, some [...]⟩ byte-identical. -/
theorem C9_load_failure_no_mutation_witness :
    ((PingMePlz.loadRules ⟨7, some [("a", PingMePlz.mkHost "a" "e")]⟩
        none true none).2 = .error "loadRules Stat") ∧
      (PingMePlz.loadRules ⟨7, some [("a", PingMePlz.mkHost "a" "e")]⟩
          none true none).1 = ⟨7, some [("a", PingMePlz.mkHost "a" "e")]⟩ :=
  ⟨rfl, C9_load_failure_no_mutation ⟨7, some [("a", PingMePlz.mkHost "a" "e")]⟩
    none true none "loadRules Stat" rfl⟩

/-- C10: a successful reload — mtime check passed, open and decode succeeded
— replaces the entire host map with the freshly decoded records and records
the new mtime; every host in the decoded map (in particular every host that
was also present before) carries zeroed runtime state: cursor position 0 and
latency, error and collection-time histories all at their zero values. -/
theorem C10_reload_resets_runtime_state (r : PingMePlz.RunnerState) (m : Nat)
    (records : List (String × String))
    (hskip : ¬(m < r.last ∧ r.Hosts.isSome = true)) :
    ((PingMePlz.loadRules r (some m) true (some records)).1.Hosts =
        some (PingMePlz.decodeHosts records)) ∧
      ((PingMePlz.loadRules r (some m) true (some records)).1.last = m) ∧
      ∀ p ∈ PingMePlz.decodeHosts records,
        p.2.pos = 0 ∧
          ∀ i, p.2.Latency i = 0 ∧ p.2.Error i = none ∧
            p.2.CollectionTime i = 0 := by
  refine ⟨by simp [PingMePlz.loadRules, hskip], by simp [PingMePlz.loadRules, hskip], ?_⟩
  intro p hp
  obtain ⟨x, hx, rfl⟩ := List.mem_map.mp hp
  exact ⟨rfl, fun i => ⟨rfl, rfl, rfl⟩⟩

/-- C10 witness: reloading over the state ⟨0, none⟩ with mtime 1 and one
decoded record installs the fresh map, stores mtime 1, and the decoded host
has all-zero runtime state. -/
theorem C10_reload_resets_runtime_state_witness :
    (¬((1 : Nat) < (⟨0, none⟩ : PingMePlz.RunnerState).last ∧
        (⟨0, none⟩ : PingMePlz.RunnerState).Hosts.isSome = true)) ∧
      (((PingMePlz.loadRules ⟨0, none⟩ (some 1) true (some [("a", "e")])).1.Hosts =
          some (PingMePlz.decodeHosts [("a", "e")])) ∧
        ((PingMePlz.loadRules ⟨0, none⟩ (some 1) true (some [("a", "e")])).1.last = 1) ∧
        ∀ p ∈ PingMePlz.decodeHosts [("a", "e")],
          p.2.pos = 0 ∧
            ∀ i, p.2.Latency i = 0 ∧ p.2.Error i = none ∧
              p.2.CollectionTime i = 0) :=
  ⟨by simp, C10_reload_resets_runtime_state ⟨0, none⟩ 1 [("a", "e")] (by simp)⟩
